import Mathlib

/-!
Shallow embedding of the reactive observable cell implemented in
src/reactivity/src/lib.rs of the mute-unmute-poc repository.

The embedding models:
  - oneshot channels (futures::channel::oneshot) as a `Nat`-indexed map of
    channel states (`OneshotMsg`), where dropping the sender of a channel
    that has not been sent on cancels it (the receiver observes `Canceled`,
    converted to `Dropped` by the `From` impl at lib.rs 240-244);
  - mpsc unbounded channels as a `Nat`-indexed map of `MpscChan` records
    (receiver-closed flag, sender-dropped flag, buffered values in order);
  - the three subscriber storage strategies
    (`Vec<UniversalSubscriber<T>>`, `Vec<SubscriberOnce<T>>`,
    `Vec<mpsc::UnboundedSender<T>>`) as Lean lists, with their
    `OnReactiveFieldModification::on_modify` implementations translated
    statement by statement (Rust `Vec::retain` processes elements in order;
    a removed element's channel sender is dropped at removal; `.unwrap()` on
    a failing operation is modelled as `Except.error RtError.panicked`);
  - `ReactiveField::borrow_mut` plus the `Drop` impl of
    `MutReactiveFieldGuard` (lib.rs 391-401) as a single `mutate` step that
    snapshots the value, applies the caller's mutation, and invokes
    `on_modify` once exactly when the new value differs from the snapshot.
-/

namespace Reactivity

/-- State of a futures oneshot channel: nothing sent yet, a value sent, or
the sender dropped before sending (the receiver then observes `Canceled`). -/
inductive OneshotMsg where
  | empty
  | sent
  | canceled
  deriving DecidableEq

/-- The error type delivered to one-shot waiters, from lib.rs 237-238. -/
structure Dropped where
  deriving DecidableEq

/-- Runtime failure of a notification pass: a `.unwrap()` call in
`on_modify` observed `None` or `Err`. -/
inductive RtError where
  | panicked
  deriving DecidableEq

/-- Outcome of the future returned by `subscribe_once`
(lib.rs 268: `async move { Ok(rx.await?) }`, with the
`From<oneshot::Canceled> for Dropped` conversion at lib.rs 240-244):
still pending while nothing happened on the channel, `Ok(())` once sent,
`Err(Dropped)` once the sender is dropped unsent. -/
def oneshotFutureResult : OneshotMsg → Option (Except Dropped Unit)
  | .empty => none
  | .sent => some (.ok ())
  | .canceled => some (.error ⟨⟩)

/-- State of an mpsc unbounded channel: whether the receiving end was
dropped, whether the sending end was dropped, and the values delivered so
far in order (the receiver's stream yields exactly `buffer`, and terminates
after it only when `txDropped` is true). -/
structure MpscChan (T : Type) where
  rxClosed : Bool
  txDropped : Bool
  buffer : List T

/-- A freshly created mpsc channel: both ends alive, nothing buffered. -/
def freshMpsc {T : Type} : MpscChan T := ⟨false, false, []⟩

/-- Sending on a oneshot channel (`Sender::send`). The send result is
discarded by the source, so the state simply becomes `sent`. -/
def sendOneshot (os : Nat → OneshotMsg) (cid : Nat) : Nat → OneshotMsg :=
  Function.update os cid .sent

/-- Effect on a oneshot channel state of dropping its sender: an unsent
channel becomes canceled, anything else is unchanged. -/
def dropOneshotTx : OneshotMsg → OneshotMsg
  | .empty => .canceled
  | s => s

/-- Dropping the sender of oneshot channel `cid`. -/
def cancelOneshot (os : Nat → OneshotMsg) (cid : Nat) : Nat → OneshotMsg :=
  Function.update os cid (dropOneshotTx (os cid))

/-- `UnboundedSender::unbounded_send` on an open channel appends to the
receiver's buffer. -/
def mpscPush {T : Type} (ms : Nat → MpscChan T) (cid : Nat) (v : T) :
    Nat → MpscChan T :=
  Function.update ms cid { ms cid with buffer := (ms cid).buffer ++ [v] }

/-- Dropping the sending half of mpsc channel `cid`. -/
def mpscDropTx {T : Type} (ms : Nat → MpscChan T) (cid : Nat) :
    Nat → MpscChan T :=
  Function.update ms cid { ms cid with txDropped := true }

/-- The tagged subscriber union from lib.rs 219-225. A `When` entry carries
`RefCell<Option<oneshot::Sender<()>>>`, modelled as `Option Nat`: `some cid`
while the sender of channel `cid` is still present, `none` after it was
taken, together with the predicate `assert_fn`. An `All` entry carries the
sending half of mpsc channel `chan`. -/
inductive UniversalSubscriber (T : Type) where
  | When (sender : Option Nat) (assert_fn : T → Bool)
  | All (chan : Nat)

/-- The one-shot-only subscriber record from lib.rs 230-233, with the same
modelling of its `sender` field as `UniversalSubscriber.When`. -/
structure SubscriberOnce (T : Type) where
  sender : Option Nat
  assert_fn : T → Bool

variable {T : Type}

/-- Translation of `OnReactiveFieldModification for
Vec<UniversalSubscriber<T>>::on_modify` (lib.rs 281-298). The `retain`
closure is applied to entries in order; a closure result of `true` keeps
the entry, `false` removes it and drops the channel sender it owns.
`When` entries whose predicate holds take the oneshot sender out of the
`RefCell` (`take().unwrap()` observes `None` and panics if it was already
taken) and send on it, then return `true`; entries whose predicate fails
return `false`. `All` entries call `unbounded_send(..).unwrap()` (which
panics when the receiver is closed) and return `false`. -/
def uniOnModify (data : T) :
    List (UniversalSubscriber T) → (Nat → OneshotMsg) → (Nat → MpscChan T) →
    Except RtError
      (List (UniversalSubscriber T) × (Nat → OneshotMsg) × (Nat → MpscChan T))
  | [], os, ms => .ok ([], os, ms)
  | UniversalSubscriber.When (some cid) f :: rest, os, ms =>
    if f data then
      match uniOnModify data rest (sendOneshot os cid) ms with
      | .ok (rest', os', ms') =>
          .ok (UniversalSubscriber.When none f :: rest', os', ms')
      | .error e => .error e
    else
      uniOnModify data rest (cancelOneshot os cid) ms
  | UniversalSubscriber.When none f :: rest, os, ms =>
    if f data then .error .panicked
    else uniOnModify data rest os ms
  | UniversalSubscriber.All cid :: rest, os, ms =>
    if (ms cid).rxClosed then .error .panicked
    else uniOnModify data rest os (mpscDropTx (mpscPush ms cid data) cid)

/-- Translation of `OnReactiveFieldModification for
Vec<SubscriberOnce<T>>::on_modify` (lib.rs 315-329): the same `retain`
closure as the `When` arm of `uniOnModify`. -/
def onceOnModify (data : T) :
    List (SubscriberOnce T) → (Nat → OneshotMsg) →
    Except RtError (List (SubscriberOnce T) × (Nat → OneshotMsg))
  | [], os => .ok ([], os)
  | ⟨some cid, f⟩ :: rest, os =>
    if f data then
      match onceOnModify data rest (sendOneshot os cid) with
      | .ok (rest', os') => .ok (SubscriberOnce.mk none f :: rest', os')
      | .error e => .error e
    else
      onceOnModify data rest (cancelOneshot os cid)
  | ⟨none, f⟩ :: rest, os =>
    if f data then .error .panicked
    else onceOnModify data rest os

/-- Translation of `OnReactiveFieldModification for
Vec<mpsc::UnboundedSender<T>>::on_modify` (lib.rs 340-349):
`self.iter().filter(|sub| !sub.is_closed()).for_each(|sub|
sub.unbounded_send(data.clone()).unwrap())`. The subscriber list itself is
not touched (`iter`, not `retain`); closed channels are skipped, so the
`unwrap` never observes a disconnected channel in this single-threaded
pass. -/
def defaultOnModify (data : T) (subs : List Nat) (ms : Nat → MpscChan T) :
    Nat → MpscChan T :=
  subs.foldl
    (fun ms cid => if (ms cid).rxClosed then ms else mpscPush ms cid data) ms

/-- `ReactiveField<T, Vec<UniversalSubscriber<T>>, T>`
(alias `OnceAndManyReactiveField`, lib.rs 31-32, 93-107), together with the
runtime state of every channel it ever handed out. `nextOneshot` and
`nextMpsc` allocate fresh channel identifiers; unallocated oneshot channels
sit at `empty` and unallocated mpsc channels at `freshMpsc`. -/
structure UniCell (T : Type) where
  data : T
  subs : List (UniversalSubscriber T)
  nextOneshot : Nat
  oneshots : Nat → OneshotMsg
  nextMpsc : Nat
  mpscs : Nat → MpscChan T

/-- `ReactiveField::new` for the universal storage (lib.rs 100-107). -/
def UniCell.new (v : T) : UniCell T :=
  { data := v, subs := [], nextOneshot := 0, oneshots := fun _ => .empty,
    nextMpsc := 0, mpscs := fun _ => freshMpsc }

/-- `SubscribableOnce for Vec<UniversalSubscriber<T>>::subscribe_once`
(lib.rs 257-270): create a oneshot channel, push a `When` entry holding its
sender, and hand the caller the receiving future (identified by the channel
id returned here). -/
def UniCell.subscribe_once (c : UniCell T) (f : T → Bool) : UniCell T × Nat :=
  ({ c with
      subs := c.subs ++ [UniversalSubscriber.When (some c.nextOneshot) f],
      nextOneshot := c.nextOneshot + 1 },
   c.nextOneshot)

/-- `Subscribable for Vec<UniversalSubscriber<T>>::subscribe`
(lib.rs 272-279): create an mpsc channel, push an `All` entry holding its
sender, and hand the caller the receiving stream (identified by the channel
id returned here). -/
def UniCell.subscribe (c : UniCell T) : UniCell T × Nat :=
  ({ c with
      subs := c.subs ++ [UniversalSubscriber.All c.nextMpsc],
      nextMpsc := c.nextMpsc + 1 },
   c.nextMpsc)

/-- The future returned by `ReactiveField::when`: either
`Box::pin(future::ok(()))` (already resolved, nothing registered) or the
pending receiver of oneshot channel `cid`. -/
inductive WhenFuture where
  | ready
  | pending (cid : Nat)
  deriving DecidableEq

/-- Outcome of a `WhenFuture` given the current oneshot channel states. -/
def WhenFuture.result (os : Nat → OneshotMsg) :
    WhenFuture → Option (Except Dropped Unit)
  | .ready => some (.ok ())
  | .pending cid => oneshotFutureResult (os cid)

/-- `ReactiveField::when` (lib.rs 133-146): if `assert_fn` already holds on
the current data, return an immediately-resolved future without touching
storage; otherwise register a one-shot subscriber. -/
def UniCell.when (c : UniCell T) (f : T → Bool) : UniCell T × WhenFuture :=
  if f c.data then (c, .ready)
  else
    let r := c.subscribe_once f
    (r.1, .pending r.2)

/-- `ReactiveField::when_eq` (lib.rs 166-172):
`self.when(move |data| data == &should_be)`. -/
def UniCell.when_eq [DecidableEq T] (c : UniCell T) (v : T) :
    UniCell T × WhenFuture :=
  c.when (fun data => data == v)

/-- The user dropping the receiving end of subscription stream `cid`. -/
def UniCell.dropRx (c : UniCell T) (cid : Nat) : UniCell T :=
  { c with
      mpscs := Function.update c.mpscs cid { c.mpscs cid with rxClosed := true } }

/-- One guard scope: `ReactiveField::borrow_mut` (lib.rs 190-197) snapshots
the value, the caller mutates through the guard (`f`), and the guard's
`Drop` impl (lib.rs 391-401) runs `on_modify` once exactly when the final
value differs from the snapshot. -/
def UniCell.mutate [DecidableEq T] (c : UniCell T) (f : T → T) :
    Except RtError (UniCell T) :=
  if f c.data ≠ c.data then
    match uniOnModify (f c.data) c.subs c.oneshots c.mpscs with
    | .ok (subs', os', ms') =>
        .ok { data := f c.data, subs := subs', nextOneshot := c.nextOneshot,
              oneshots := os', nextMpsc := c.nextMpsc, mpscs := ms' }
    | .error e => .error e
  else .ok { c with data := f c.data }

/-- The sequence of `on_modify` invocations (with their argument) performed
by the guard's `Drop` impl (lib.rs 396-400), parameterised by the snapshot
taken at guard creation and the value at guard release. -/
def guardDropNotifies [DecidableEq T] (value_before_mutation newData : T) :
    List T :=
  if newData ≠ value_before_mutation then [newData] else []

/-- Effect on the oneshot channel states of dropping one stored subscriber
entry (a `When` entry still holding its sender drops that sender; anything
else owns no oneshot sender). -/
def dropSenderStep (os : Nat → OneshotMsg) :
    UniversalSubscriber T → Nat → OneshotMsg
  | UniversalSubscriber.When (some cid) _ => cancelOneshot os cid
  | UniversalSubscriber.When none _ => os
  | UniversalSubscriber.All _ => os

/-- Destroying the cell drops its subscriber storage and with it every
stored oneshot sender, in order; the resulting oneshot channel states
determine every outstanding waiter's outcome. -/
def UniCell.dropCell (c : UniCell T) : Nat → OneshotMsg :=
  c.subs.foldl dropSenderStep c.oneshots

/-- `ReactiveField<T, Vec<SubscriberOnce<T>>, T>`
(alias `OnceReactiveField`, lib.rs 26, 77-91). -/
structure OnceCell (T : Type) where
  data : T
  subs : List (SubscriberOnce T)
  nextOneshot : Nat
  oneshots : Nat → OneshotMsg

/-- `ReactiveField::new` for the one-shot-only storage (lib.rs 84-90). -/
def OnceCell.new (v : T) : OnceCell T :=
  { data := v, subs := [], nextOneshot := 0, oneshots := fun _ => .empty }

/-- `SubscribableOnce for Vec<SubscriberOnce<T>>::subscribe_once`
(lib.rs 300-313). -/
def OnceCell.subscribe_once (c : OnceCell T) (f : T → Bool) :
    OnceCell T × Nat :=
  ({ c with
      subs := c.subs ++ [SubscriberOnce.mk (some c.nextOneshot) f],
      nextOneshot := c.nextOneshot + 1 },
   c.nextOneshot)

/-- `ReactiveField::when` for the one-shot-only storage (lib.rs 133-146). -/
def OnceCell.when (c : OnceCell T) (f : T → Bool) : OnceCell T × WhenFuture :=
  if f c.data then (c, .ready)
  else
    let r := c.subscribe_once f
    (r.1, .pending r.2)

/-- `ReactiveField::when_eq` for the one-shot-only storage
(lib.rs 166-172). -/
def OnceCell.when_eq [DecidableEq T] (c : OnceCell T) (v : T) :
    OnceCell T × WhenFuture :=
  c.when (fun data => data == v)

/-- One guard scope on a one-shot-only cell (lib.rs 190-197, 391-401). -/
def OnceCell.mutate [DecidableEq T] (c : OnceCell T) (f : T → T) :
    Except RtError (OnceCell T) :=
  if f c.data ≠ c.data then
    match onceOnModify (f c.data) c.subs c.oneshots with
    | .ok (subs', os') =>
        .ok { data := f c.data, subs := subs', nextOneshot := c.nextOneshot,
              oneshots := os' }
    | .error e => .error e
  else .ok { c with data := f c.data }

/-- `ReactiveField<T, Vec<mpsc::UnboundedSender<T>>, T>`
(alias `DefaultReactiveField`, lib.rs 15-18, 62-75), storing the channel
ids of its stream subscribers. -/
structure DefaultCell (T : Type) where
  data : T
  subs : List Nat
  nextMpsc : Nat
  mpscs : Nat → MpscChan T

/-- `ReactiveField::new` for the streaming-only storage (lib.rs 68-74). -/
def DefaultCell.new (v : T) : DefaultCell T :=
  { data := v, subs := [], nextMpsc := 0, mpscs := fun _ => freshMpsc }

/-- `Subscribable for Vec<mpsc::UnboundedSender<T>>::subscribe`
(lib.rs 331-338). -/
def DefaultCell.subscribe (c : DefaultCell T) : DefaultCell T × Nat :=
  ({ c with subs := c.subs ++ [c.nextMpsc], nextMpsc := c.nextMpsc + 1 },
   c.nextMpsc)

/-- The user dropping the receiving end of subscription stream `cid`. -/
def DefaultCell.dropRx (c : DefaultCell T) (cid : Nat) : DefaultCell T :=
  { c with
      mpscs := Function.update c.mpscs cid { c.mpscs cid with rxClosed := true } }

/-- One guard scope on a streaming-only cell (lib.rs 190-197, 391-401);
this storage's notification pass cannot fail. -/
def DefaultCell.mutate [DecidableEq T] (c : DefaultCell T) (f : T → T) :
    DefaultCell T :=
  if f c.data ≠ c.data then
    { c with data := f c.data, mpscs := defaultOnModify (f c.data) c.subs c.mpscs }
  else { c with data := f c.data }

/-- The events a subscriber on mpsc channel `cid` has received, in order. -/
def streamEvents (ms : Nat → MpscChan T) (cid : Nat) : List T :=
  (ms cid).buffer

/-- Whether a stored universal subscriber is an already-resolved one-shot
entry (its oneshot sender has been taken). -/
def isResolvedWhen : UniversalSubscriber T → Bool
  | UniversalSubscriber.When none _ => true
  | _ => false

/-- Registering `n` independent `when_eq v` waiters on a cell, one after
the other. -/
def registerWhenEqN [DecidableEq T] (c : UniCell T) (v : T) : Nat → UniCell T
  | 0 => c
  | n + 1 => ((registerWhenEqN c v n).when_eq v).1

/-! Concrete runs used to settle the claims on explicit inputs. -/

/-- Universal-storage cell holding `1` with one stream subscriber
(channel 0), then three separate increment-by-one guard scopes. -/
def c1uniRun : Except RtError (UniCell Int) := do
  let c ← ((UniCell.new (1 : Int)).subscribe).1.mutate (fun x => x + 1)
  let c ← c.mutate (fun x => x + 1)
  c.mutate (fun x => x + 1)

/-- Streaming-only cell holding `1` with one stream subscriber
(channel 0), then three separate increment-by-one guard scopes. -/
def c1defRun : DefaultCell Int :=
  ((((DefaultCell.new (1 : Int)).subscribe).1.mutate (fun x => x + 1)).mutate
      (fun x => x + 1)).mutate (fun x => x + 1)

/-- Universal-storage cell holding `0` with a `when_eq 2` waiter. -/
def c2reg : UniCell Int × WhenFuture := (UniCell.new (0 : Int)).when_eq 2

/-- The `when_eq 2` cell after a guard scope writing `1` and then a guard
scope writing `2`. -/
def c2run : Except RtError (UniCell Int) := do
  let c ← c2reg.1.mutate (fun _ => 1)
  c.mutate (fun _ => 2)

/-- One-shot-only cell holding `0` with a `when_eq 2` waiter. -/
def c4reg : OnceCell Int × WhenFuture := (OnceCell.new (0 : Int)).when_eq 2

/-- The one-shot-only `when_eq 2` cell after a guard scope writing `1` and
then a guard scope writing `2`. -/
def c4run : Except RtError (OnceCell Int) := do
  let c ← c4reg.1.mutate (fun _ => 1)
  c.mutate (fun _ => 2)

/-- Universal-storage cell with one stream subscriber whose receiving end
is dropped before the next (changing) mutation. -/
def c5run : Except RtError (UniCell Int) :=
  ((((UniCell.new (0 : Int)).subscribe).1).dropRx 0).mutate (fun _ => 1)

/-- Universal-storage cell holding `0` with a `when_eq 1` waiter, after a
guard scope writing `1` (the waiter resolves during this pass). -/
def c6uniRun : Except RtError (UniCell Int) :=
  (((UniCell.new (0 : Int)).when_eq 1).1).mutate (fun _ => 1)

/-- Streaming-only cell with one subscriber whose receiving end is dropped,
after a guard scope writing `1`. -/
def c6defRun : DefaultCell Int :=
  ((((DefaultCell.new (0 : Int)).subscribe).1).dropRx 0).mutate (fun _ => 1)

/-! Helper lemmas about the notification pass and cell destruction. -/

theorem sendOneshot_mono (os : Nat → OneshotMsg) (cid c : Nat)
    (h : os c = .sent) : sendOneshot os cid c = .sent := by
  unfold sendOneshot
  rcases eq_or_ne c cid with rfl | hne
  · simp [Function.update_same]
  · rw [Function.update_noteq hne, h]

theorem uniOnModify_all_matching (data : T)
    (subs : List (UniversalSubscriber T)) :
    ∀ (os : Nat → OneshotMsg) (ms : Nat → MpscChan T),
      (∀ s ∈ subs, ∃ cid f,
        s = UniversalSubscriber.When (some cid) f ∧ f data = true) →
      ∃ subs' os',
        uniOnModify data subs os ms = .ok (subs', os', ms) ∧
        (∀ cid, os cid = .sent → os' cid = .sent) ∧
        (∀ cid f,
          UniversalSubscriber.When (some cid) f ∈ subs → os' cid = .sent) := by
  induction subs with
  | nil =>
    intro os ms _
    exact ⟨[], os, rfl, fun _ h => h, by simp⟩
  | cons s rest ih =>
    intro os ms hall
    obtain ⟨cid, f, rfl, hf⟩ := hall s (List.mem_cons_self s rest)
    obtain ⟨rest', os', heq, hmono, hmem⟩ :=
      ih (sendOneshot os cid) ms (fun t ht => hall t (List.mem_cons_of_mem _ ht))
    refine ⟨UniversalSubscriber.When none f :: rest', os', ?_, ?_, ?_⟩
    · simp only [uniOnModify, hf, if_true]
      rw [heq]
    · exact fun c hc => hmono c (sendOneshot_mono os cid c hc)
    · intro c g hcg
      rcases List.mem_cons.mp hcg with h | h
      · injection h with h1 h2
        injection h1 with h1
        subst h1
        exact hmono c (by simp [sendOneshot, Function.update_same])
      · exact hmem c g h

theorem dropSenderStep_canceled (os : Nat → OneshotMsg)
    (s : UniversalSubscriber T) (cid : Nat) (h : os cid = .canceled) :
    dropSenderStep os s cid = .canceled := by
  cases s with
  | When sender f =>
    cases sender with
    | none => exact h
    | some c' =>
      simp only [dropSenderStep, cancelOneshot]
      rcases eq_or_ne cid c' with rfl | hne
      · rw [Function.update_same, h]; rfl
      · rw [Function.update_noteq hne, h]
  | All _ => exact h

theorem foldl_dropSenderStep_canceled (subs : List (UniversalSubscriber T)) :
    ∀ (os : Nat → OneshotMsg) (cid : Nat), os cid = .canceled →
      (subs.foldl dropSenderStep os) cid = .canceled := by
  induction subs with
  | nil => exact fun _ _ h => h
  | cons s rest ih =>
    intro os cid h
    exact ih _ cid (dropSenderStep_canceled os s cid h)

theorem dropSenderStep_empty_or_canceled (os : Nat → OneshotMsg)
    (s : UniversalSubscriber T) (cid : Nat)
    (h : os cid = .empty ∨ os cid = .canceled) :
    dropSenderStep os s cid = .empty ∨ dropSenderStep os s cid = .canceled := by
  cases s with
  | When sender f =>
    cases sender with
    | none => exact h
    | some c' =>
      simp only [dropSenderStep, cancelOneshot]
      rcases eq_or_ne cid c' with rfl | hne
      · rw [Function.update_same]
        rcases h with h | h <;> rw [h] <;> simp [dropOneshotTx]
      · rw [Function.update_noteq hne]
        exact h
  | All _ => exact h

theorem foldl_drop_cancels (subs : List (UniversalSubscriber T)) :
    ∀ (os : Nat → OneshotMsg) (cid : Nat) (f : T → Bool),
      UniversalSubscriber.When (some cid) f ∈ subs →
      (os cid = .empty ∨ os cid = .canceled) →
      (subs.foldl dropSenderStep os) cid = .canceled := by
  induction subs with
  | nil => intro _ _ _ h _; cases h
  | cons s rest ih =>
    intro os cid f hmem hoc
    rcases List.mem_cons.mp hmem with h | h
    · subst h
      refine foldl_dropSenderStep_canceled rest _ cid ?_
      simp only [dropSenderStep, cancelOneshot, Function.update_same]
      rcases hoc with h | h <;> rw [h] <;> rfl
    · exact ih (dropSenderStep os s) cid f h
        (dropSenderStep_empty_or_canceled os s cid hoc)

theorem mutate_of_changed [DecidableEq T] (c : UniCell T) (f : T → T)
    (h : f c.data ≠ c.data) :
    c.mutate f =
      match uniOnModify (f c.data) c.subs c.oneshots c.mpscs with
      | .ok (subs', os', ms') =>
          .ok { data := f c.data, subs := subs', nextOneshot := c.nextOneshot,
                oneshots := os', nextMpsc := c.nextMpsc, mpscs := ms' }
      | .error e => .error e := by
  simp [UniCell.mutate, h]

theorem registerWhenEqN_new [DecidableEq T] (v₀ v : T) (hne : v₀ ≠ v)
    (n : Nat) :
    registerWhenEqN (UniCell.new v₀) v n =
      { data := v₀,
        subs := (List.range n).map
          (fun i => UniversalSubscriber.When (some i) (fun data => data == v)),
        nextOneshot := n,
        oneshots := fun _ => .empty,
        nextMpsc := 0,
        mpscs := fun _ => freshMpsc } := by
  have hbe : ((v₀ == v) : Bool) = false := by
    simpa using hne
  induction n with
  | zero => rfl
  | succ n ih =>
    rw [registerWhenEqN, ih]
    simp [UniCell.when_eq, UniCell.when, hbe, UniCell.subscribe_once,
      List.range_succ]

/-! Claim theorems. -/

/-- C1: the spec claims that with any storage strategy a live streaming
subscriber receives every committed new value, in order (a subscriber on a
cell holding 1 observes [2, 3, 4] after three increment-by-one guard
scopes). The streaming-only storage does behave this way, but the
universal storage's `on_modify` returns `false` from its `retain` closure
after delivering to an `All` entry, so the subscriber is removed after the
first event: it observes only [2] and its stream is closed. -/
theorem C1_universal_stream_truncated :
    c1uniRun.map
        (fun c => (streamEvents c.mpscs 0, (c.mpscs 0).txDropped)) =
      .ok ([2], true) ∧
    streamEvents c1defRun.mpscs 0 = [2, 3, 4] ∧
    ([2] : List Int) ≠ [2, 3, 4] :=
  ⟨rfl, rfl, by decide⟩

/-- C2: the spec claims a `when_eq target` future resolves exactly once,
on the first mutation pass that leaves the value equal to `target`. In the
code, the pass that observes a non-matching value removes the pending
entry (dropping its oneshot sender), so on a cell holding 0 with a
`when_eq 2` waiter, the guard scope writing 1 kills the waiter with
`Dropped`, and the following guard scope writing 2 (the first that leaves
the value equal to the target) resolves nothing. -/
theorem C2_waiter_dropped_not_resolved :
    c2reg.2 = WhenFuture.pending 0 ∧
    c2run.map (fun c => oneshotFutureResult (c.oneshots 0)) =
      .ok (some (.error ⟨⟩)) :=
  ⟨rfl, rfl⟩

/-- C3: when a guard is released, the Modification Notifier is invoked
exactly once with the new value if the value differs from the snapshot
taken at guard creation, and not at all if it equals the snapshot, in
which case the cell's subscribers and channels are untouched. -/
theorem C3_guard_notifies_iff_changed [DecidableEq T] (c : UniCell T)
    (f : T → T) :
    (f c.data ≠ c.data → guardDropNotifies c.data (f c.data) = [f c.data]) ∧
    (f c.data = c.data →
      guardDropNotifies c.data (f c.data) = [] ∧
      c.mutate f = .ok { c with data := f c.data }) := by
  constructor
  · intro h
    simp [guardDropNotifies, h]
  · intro h
    exact ⟨by simp [guardDropNotifies, h], by simp [UniCell.mutate, h]⟩

/-- Witness for C3 at a concrete input: an identity write-back on a cell
holding 5 commits no notification and leaves the cell unchanged, while a
change to 6 yields exactly one notifier invocation carrying 6. -/
theorem C3_guard_notifies_iff_changed_witness :
    guardDropNotifies (UniCell.new (5 : Int)).data
        ((fun x => x + 1) (UniCell.new (5 : Int)).data) =
      [(fun x => x + 1) (UniCell.new (5 : Int)).data] ∧
    guardDropNotifies (UniCell.new (5 : Int)).data
        (id (UniCell.new (5 : Int)).data) = [] ∧
    (UniCell.new (5 : Int)).mutate id =
      .ok { UniCell.new (5 : Int) with data := id (UniCell.new (5 : Int)).data } :=
  ⟨(C3_guard_notifies_iff_changed (UniCell.new (5 : Int))
      (fun x => x + 1)).1 (by decide),
   ((C3_guard_notifies_iff_changed (UniCell.new (5 : Int)) id).2 rfl).1,
   ((C3_guard_notifies_iff_changed (UniCell.new (5 : Int)) id).2 rfl).2⟩

/-- C4: the spec claims a one-shot entry whose predicate does not hold is
retained by the notification pass, so the waiter survives intervening
non-matching mutations and resolves later. In the code the `retain`
closure returns `false` for a non-matching entry: on a one-shot-only cell
holding 0 with a `when_eq 2` waiter, the guard scope writing 1 empties the
storage and the waiter's future fails with `Dropped`; the later guard
scope writing 2 resolves nothing. -/
theorem C4_pending_entry_removed_on_nonmatch :
    c4reg.2 = WhenFuture.pending 0 ∧
    (c4reg.1.mutate (fun _ => 1)).map (fun c => c.subs.length) = .ok 0 ∧
    c4run.map (fun c => oneshotFutureResult (c.oneshots 0)) =
      .ok (some (.error ⟨⟩)) :=
  ⟨rfl, rfl, rfl⟩

/-- C5: the spec claims that a streaming subscriber whose receiving end
was dropped is silently skipped and pruned by the next notification pass.
In the universal storage the `All` arm calls
`unbounded_send(data.clone()).unwrap()` without checking `is_closed`, so
the pass on a cell with one detached subscriber aborts with a panic. -/
theorem C5_detached_stream_panics :
    c5run = .error RtError.panicked :=
  rfl

/-- C6: the spec claims storage never retains stale entries across two
notification passes. In the universal storage, a one-shot entry that just
resolved is retained (its `retain` closure returns `true` after taking the
sender), and in the streaming-only storage `on_modify` only iterates
(never prunes), so a closed channel id stays in storage after the pass. -/
theorem C6_stale_entries_retained :
    c6uniRun.map (fun c => c.subs.map isResolvedWhen) = .ok [true] ∧
    c6defRun.subs = [0] ∧
    (c6defRun.mpscs 0).rxClosed = true :=
  ⟨rfl, rfl, rfl⟩

/-- C7: destroying a cell drops its subscriber storage, and with it the
oneshot sender of every still-pending one-shot waiter, so each such
waiter's future completes with `Err(Dropped)` rather than hanging or
succeeding. -/
theorem C7_drop_delivers_dropped (c : UniCell T) (cid : Nat) (f : T → Bool)
    (hmem : UniversalSubscriber.When (some cid) f ∈ c.subs)
    (hpending : c.oneshots cid = .empty) :
    oneshotFutureResult (c.dropCell cid) = some (.error ⟨⟩) := by
  have h := foldl_drop_cancels c.subs c.oneshots cid f hmem (Or.inl hpending)
  unfold UniCell.dropCell
  rw [h]
  rfl

/-- Witness for C7 at a concrete input: the `when_eq 1` waiter registered
on a universal-storage cell holding 0 receives `Dropped` when the cell is
destroyed before any mutation. -/
theorem C7_drop_delivers_dropped_witness :
    oneshotFutureResult ((((UniCell.new (0 : Int)).when_eq 1).1).dropCell 0) =
      some (.error ⟨⟩) :=
  C7_drop_delivers_dropped (((UniCell.new (0 : Int)).when_eq 1).1) 0
    (fun data => data == (1 : Int)) (List.Mem.head _) rfl

/-- C8: N independent `when_eq v` waiters registered on a fresh cell
(holding a value different from `v`) before any mutation all resolve with
`Ok(())` during the single notification pass of one guard scope that
leaves the value equal to `v`. -/
theorem C8_single_mutation_resolves_all_waiters [DecidableEq T]
    (v₀ v : T) (n : Nat) (hne : v₀ ≠ v) :
    ∃ c', (registerWhenEqN (UniCell.new v₀) v n).mutate (fun _ => v) =
        .ok c' ∧
      ∀ cid, cid < n →
        oneshotFutureResult (c'.oneshots cid) = some (.ok ()) := by
  rw [registerWhenEqN_new v₀ v hne n]
  have hall : ∀ s ∈ (List.range n).map
      (fun i => UniversalSubscriber.When (some i) (fun data => data == v)),
      ∃ cid f, s = UniversalSubscriber.When (some cid) f ∧ f v = true := by
    intro s hs
    obtain ⟨i, _, rfl⟩ := List.mem_map.mp hs
    exact ⟨i, _, rfl, by simp⟩
  obtain ⟨subs', os', heq, hmono, hmem⟩ :=
    uniOnModify_all_matching v
      ((List.range n).map
        (fun i => UniversalSubscriber.When (some i) (fun data => data == v)))
      (fun _ => .empty) (fun _ => freshMpsc) hall
  refine ⟨{ data := v, subs := subs', nextOneshot := n, oneshots := os',
            nextMpsc := 0, mpscs := fun _ => freshMpsc }, ?_, ?_⟩
  · rw [mutate_of_changed _ _ (Ne.symm hne), heq]
  · intro cid hcid
    have hm : UniversalSubscriber.When (some cid) (fun data => data == v) ∈
        (List.range n).map
          (fun i => UniversalSubscriber.When (some i) (fun data => data == v)) :=
      List.mem_map.mpr ⟨cid, List.mem_range.mpr hcid, rfl⟩
    show oneshotFutureResult (os' cid) = some (.ok ())
    rw [hmem cid _ hm]
    rfl

/-- Witness for C8 at a concrete input: three `when_eq 7` waiters on a
cell holding 0 all resolve after one guard scope writing 7. -/
theorem C8_single_mutation_resolves_all_waiters_witness :
    ∃ c',
      (registerWhenEqN (UniCell.new (0 : Int)) 7 3).mutate (fun _ => 7) =
        .ok c' ∧
      ∀ cid, cid < 3 →
        oneshotFutureResult (c'.oneshots cid) = some (.ok ()) :=
  C8_single_mutation_resolves_all_waiters (0 : Int) 7 3 (by decide)

/-- C9: `when_eq target` is literally `when` applied to the predicate
comparing the value with `target`, on both storages that support one-shot
subscription, and that predicate holds exactly on values equal to
`target`. -/
theorem C9_when_eq_equals_when_pred [DecidableEq T] (c : UniCell T)
    (c₂ : OnceCell T) (v : T) :
    c.when_eq v = c.when (fun data => data == v) ∧
    c₂.when_eq v = c₂.when (fun data => data == v) ∧
    ∀ d : T, ((fun data => data == v) d = true ↔ d = v) :=
  ⟨rfl, rfl, fun d => by simp⟩

/-- C10: `when` checks the predicate against the current value first: if
it already holds, the returned future is immediately resolved with
`Ok(())` and storage is untouched; only otherwise is a pending one-shot
subscriber registered. -/
theorem C10_check_then_register (c : UniCell T) (f : T → Bool) :
    (f c.data = true →
      c.when f = (c, .ready) ∧
      WhenFuture.result c.oneshots (c.when f).2 = some (.ok ())) ∧
    (f c.data = false →
      c.when f =
        ({ c with
            subs := c.subs ++
              [UniversalSubscriber.When (some c.nextOneshot) f],
            nextOneshot := c.nextOneshot + 1 },
         .pending c.nextOneshot)) := by
  constructor
  · intro h
    constructor
    · simp [UniCell.when, h]
    · simp [UniCell.when, h, WhenFuture.result]
  · intro h
    simp [UniCell.when, h, UniCell.subscribe_once]

/-- Witness for C10 at concrete inputs: on a cell holding 3, a predicate
already satisfied resolves immediately without registration, and an
unsatisfied one registers a pending entry on oneshot channel 0. -/
theorem C10_check_then_register_witness :
    ((UniCell.new (3 : Int)).when (fun d => d == 3) =
        (UniCell.new (3 : Int), .ready) ∧
      WhenFuture.result (UniCell.new (3 : Int)).oneshots
        ((UniCell.new (3 : Int)).when (fun d => d == 3)).2 =
        some (.ok ())) ∧
    (UniCell.new (3 : Int)).when (fun d => d == 4) =
      ({ UniCell.new (3 : Int) with
          subs := [UniversalSubscriber.When (some 0) (fun d => d == 4)],
          nextOneshot := 1 },
       .pending 0) :=
  ⟨(C10_check_then_register (UniCell.new (3 : Int)) (fun d => d == 3)).1 rfl,
   (C10_check_then_register (UniCell.new (3 : Int)) (fun d => d == 4)).2 rfl⟩

end Reactivity
